import Mathlib

/-!
Verification development for the Hatrac REST core (src/hatrac/rest/core.py and
src/hatrac/rest/acl.py): a shallow embedding of the address-canonicalisation,
ACL replacement, request-lifecycle and byte-range content-delivery logic,
followed by theorems settling the frozen specification claims.

Python string operations are embedded as structural functions over `List Char`
so that every definition evaluates inside the kernel.
-/

namespace Hatrac

/-! ## Python string primitives -/

/-- Characters that Python's `str.strip()` / `int(str)` treat as whitespace. -/
def pyIsSpace (c : Char) : Bool :=
  c = ' ' || c = '\t' || c = '\n' || c = '\r' || c = Char.ofNat 11 || c = Char.ofNat 12

/-- Python `s.strip()`: drop whitespace from both ends. -/
def pyStrip (s : String) : String :=
  ⟨((s.data.dropWhile pyIsSpace).reverse.dropWhile pyIsSpace).reverse⟩

/-- Python `s.lower()` (ASCII case folding suffices for the header values used). -/
def pyLower (s : String) : String :=
  ⟨s.data.map Char.toLower⟩

/-- Split a character list at every occurrence of `sep`, keeping empty pieces,
exactly like Python `str.split(sep)` with an explicit separator. -/
def splitChar (sep : Char) : List Char → List (List Char)
  | [] => [[]]
  | c :: cs =>
    match splitChar sep cs with
    | [] => [[]]
    | s :: rest => if c = sep then [] :: s :: rest else (c :: s) :: rest

/-- Python `s.split(sep)` for a one-character separator. -/
def pySplit (s : String) (sep : Char) : List String :=
  (splitChar sep s.data).map (fun cs => ⟨cs⟩)

/-- Python `s.split(sep, 1)` unpacked into two values: `none` models the
`ValueError` raised by `first, last = r.split("-", 1)` when no separator occurs. -/
def splitOnce (s : String) (sep : Char) : Option (String × String) :=
  match splitChar sep s.data with
  | [] => none
  | [_] => none
  | x :: rest => some (⟨x⟩, ⟨List.intercalate [sep] rest⟩)

/-- Value of a non-empty all-digit character list, `none` otherwise. -/
def digitsVal (cs : List Char) : Option Nat :=
  if cs ≠ [] && cs.all Char.isDigit then
    some (cs.foldl (fun a c => a * 10 + (c.toNat - 48)) 0)
  else
    none

/-- Python 2 `int(s)` on a decimal string: strips surrounding whitespace and
accepts one optional sign, then one or more digits; every other input raises
`ValueError`, modelled as `none`.  Note this is deliberately more lenient than
the HTTP range grammar: `int("-5")` and `int(" 5")` succeed. -/
def pyInt (s : String) : Option Int :=
  match (pyStrip s).data with
  | '+' :: cs => (digitsVal cs).map Int.ofNat
  | '-' :: cs => (digitsVal cs).map (fun n => -(n : Int))
  | cs => (digitsVal cs).map Int.ofNat

/-! ## Data model

The resources reached by the claims' operations are concrete versions: a byte
length `nbytes`, optional content type and digest, and content accessors.
`str(resource)` (used in error messages) is its identity string `name`. -/

/-- A byte-addressable resource (a concrete object version). -/
structure Resource where
  name : String
  content : List Nat
  contentType : Option String := none
  contentMD5 : Option String := none
deriving DecidableEq, Repr

/-- `resource.nbytes`: total byte length. -/
def Resource.nbytes (r : Resource) : Nat := r.content.length

/-- A Python `slice(start, stop)` as built by `get_content` (both bounds are
Python ints; the suffix branch can produce `start > nbytes`). -/
structure Slice where
  start : Int
  stop : Int
deriving DecidableEq, Repr

/-- Modelled from the spec: the content accessors `resource.get_content` /
`resource.get_content_range` live in the storage engine outside this
repository slice (only the REST layer is under src/).  Spec section 4.4 calls
them "an accessor that streams either the whole body or an arbitrary byte
sub-range", so the sub-range accessor returns exactly the bytes with indices
in `[start, stop)`. -/
def Resource.getContentRange (r : Resource) (s : Slice) : List Nat :=
  (r.content.drop s.start.toNat).take (s.stop - s.start).toNat

/-! ## Range Delivery Engine (src/hatrac/rest/core.py, RestHandler.get_content) -/

/-- One comma-separated range spec, core.py lines 252-284.
`none` models a `ValueError` (range-header syntax error):
a token without a dash, a token whose numeral Python `int` rejects,
a zero-length suffix, or a closed range with `last < first`. -/
def parseSpec (nbytes : Nat) (r : String) : Option Slice :=
  match splitOnce r '-' with
  | none => none
  | some (first, last) =>
    if first = "" then
      -- a suffix request
      match pyInt last with
      | none => none
      | some length =>
        if length = 0 then none
        else
          let length := if length > (nbytes : Int) then (nbytes : Int) else length
          some ⟨max 0 ((nbytes : Int) - length), (nbytes : Int)⟩
    else
      match pyInt first with
      | none => none
      | some first =>
        if last = "" then
          -- an open [first, eof] request
          some ⟨first, (nbytes : Int)⟩
        else
          -- a closed [first, last] request
          match pyInt last with
          | none => none
          | some l => if l < first then none else some ⟨first, l + 1⟩

/-- The parsing loop over all comma-separated specs; any `ValueError` aborts
the whole header (core.py lines 252-284). -/
def parseSpecs (nbytes : Nat) : List String → Option (List Slice)
  | [] => some []
  | r :: rs =>
    match parseSpec nbytes r, parseSpecs nbytes rs with
    | some s, some l => some (s :: l)
    | _, _ => none

/-- Parse the `<rset>` part after `bytes=` into slices, or `none` on any
syntax error. -/
def parseRangeSet (nbytes : Nat) (rset : String) : Option (List Slice) :=
  parseSpecs nbytes (pySplit rset ',')

/-- `intersects_resource` (core.py lines 286-290). -/
def intersects_resource (nbytes : Nat) (r : Slice) : Bool :=
  r.start < (nbytes : Int) && r.start < r.stop + 1

/-- Outcome of the range-header analysis inside `get_content`. -/
inductive RangeOutcome
  | full
  | one (s : Slice)
  | badRange
  | notImplUnits (units : String)
  | notImplMulti
deriving DecidableEq, Repr

/-- The body of the `try` block in `get_content` (core.py lines 246-315):
split at `=`, check the units, parse all specs, filter by intersection, then
classify.  A `ValueError` anywhere in parsing (including the tuple-unpacking
of the `=` split) falls back to `full` per the lenient-server convention,
while `BadRange`/`NotImplemented` are re-raised. -/
def rangeOutcome (nbytes : Nat) (h : String) : RangeOutcome :=
  match pySplit h '=' with
  | [units, rset] =>
    if pyLower units ≠ "bytes" then RangeOutcome.notImplUnits units
    else
      match parseRangeSet nbytes rset with
      | none => RangeOutcome.full
      | some slices =>
        match slices.filter (intersects_resource nbytes) with
        | [] => RangeOutcome.badRange
        | [s] =>
          let s2 : Slice := ⟨s.start, min s.stop (nbytes : Int)⟩
          if s2.start = 0 ∧ s2.stop = (nbytes : Int) then RangeOutcome.full
          else RangeOutcome.one s2
        | _ => RangeOutcome.notImplMulti
  | _ => RangeOutcome.full

/-- A successful (200/206) response: status, `Content-Range` header,
`Content-Length`, `Content-Type`, `Content-MD5`, and the emitted body bytes
(empty under HEAD-style `get_body = false`). -/
structure Response where
  status : Nat
  contentRange : Option String
  contentLength : Nat
  contentType : Option String
  contentMD5 : Option String
  body : List Nat
deriving DecidableEq, Repr

/-- Result of `get_content`: a streamed response, or a raised `BadRange`
(status 416, `Content-Range: bytes */nbytes`, plain-text message body) or
`NotImplemented` (status 501, plain-text message body). -/
inductive HResult
  | resp (r : Response)
  | badRange (message : String) (nbytes : Nat)
  | notImplemented (message : String)
deriving DecidableEq, Repr

/-- Numeric status of a result (`BadRange.status = '416 ...'`,
`NotImplemented.status = '501 ...'` in core.py). -/
def HResult.statusCode : HResult → Nat
  | .resp r => r.status
  | .badRange _ _ => 416
  | .notImplemented _ => 501

/-- The `Content-Range` header of a result; `BadRange.__init__` emits
`bytes */<nbytes>` (core.py lines 134-137). -/
def HResult.contentRangeHeader : HResult → Option String
  | .resp r => r.contentRange
  | .badRange _ n => some ("bytes */" ++ toString n)
  | .notImplemented _ => none

/-- The plain-text body of an error result: `RestException.__init__` passes
`msg + '\n'` as the response data (core.py line 101). -/
def HResult.errorBody : HResult → Option String
  | .resp _ => none
  | .badRange m _ => some (m ++ "\n")
  | .notImplemented m => some (m ++ "\n")

/-- Response assembly of `get_content` (core.py lines 294-336): serve the
whole entity with 200, the single surviving sub-range with 206 and a
`Content-Range: bytes start-(stop-1)/nbytes` header, or raise `BadRange` /
`NotImplemented` with the source's message strings. -/
def serveOutcome (resource : Resource) (outcome : RangeOutcome) (get_body : Bool) : HResult :=
  match outcome with
  | RangeOutcome.full =>
    HResult.resp
      { status := 200, contentRange := none, contentLength := resource.nbytes,
        contentType := resource.contentType, contentMD5 := resource.contentMD5,
        body := if get_body then resource.content else [] }
  | RangeOutcome.one s =>
    let data := resource.getContentRange s
    HResult.resp
      { status := 206,
        contentRange := some ("bytes " ++ toString s.start ++ "-" ++ toString (s.stop - 1)
          ++ "/" ++ toString resource.nbytes),
        contentLength := data.length,
        contentType := resource.contentType, contentMD5 := resource.contentMD5,
        body := if get_body then data else [] }
  | RangeOutcome.badRange =>
    HResult.badRange ("Range not satisfiable for resource " ++ resource.name ++ ".")
      resource.nbytes
  | RangeOutcome.notImplUnits units =>
    HResult.notImplemented ("Range requests with units \"" ++ units ++ "\" not implemented.")
  | RangeOutcome.notImplMulti =>
    HResult.notImplemented ("Multiple range request not implemented for resource "
      ++ resource.name ++ ".")

/-- `RestHandler.get_content` (core.py lines 230-336) for a byte-addressable
resource: analyse the optional `Range` header, then either serve the whole
entity (200) or the single surviving sub-range (206), or raise.  An absent or
empty header value is falsy in `if get_range:` and serves the full entity.
`get_body = false` models HEAD: identical headers, suppressed body. -/
def get_content (resource : Resource) (header : Option String) (get_body : Bool) : HResult :=
  let outcome :=
    match header with
    | none => RangeOutcome.full
    | some h => if h = "" then RangeOutcome.full else rangeOutcome resource.nbytes h
  serveOutcome resource outcome get_body

/-! ## Spec-side range grammar (for comparison only)

Transcribes the spec's own token grammar (section 4.4): a spec token is
`-N` (suffix, digits only, `N == 0` is a syntax error), `M-` (open, digits
only), or `M-N` (closed, digits only, `N < M` is a syntax error); any other
token -- non-numeric or missing dash -- is a syntax error.  Used only to state
what the spec counts as "a header containing a syntax error". -/

/-- Numeric value of a digit list (total; meaningful only on all-digit lists). -/
def digitsNat (cs : List Char) : Nat :=
  cs.foldl (fun a c => a * 10 + (c.toNat - 48)) 0

/-- Follows the spec's words: validity of one range token. -/
def specTokenValid (tok : String) : Bool :=
  match splitChar '-' tok.data with
  | [f, l] =>
    if f = [] then
      l ≠ [] && l.all Char.isDigit && digitsNat l ≠ 0
    else if l = [] then
      f.all Char.isDigit
    else
      f.all Char.isDigit && l.all Char.isDigit && digitsNat f ≤ digitsNat l
  | _ => false

/-- Follows the spec's words: a Range header is syntactically valid when it is
`bytes=<spec>[,<spec>]*` with every token valid. -/
def specRangeHeaderValid (hdr : String) : Bool :=
  match pySplit hdr '=' with
  | [units, rset] => pyLower units = "bytes" && (pySplit rset ',').all specTokenValid
  | _ => false

/-! ## ACL category replacement (src/hatrac/rest/acl.py, ACL.PUT) -/

/-- A decoded JSON value as produced by `jsonReader`. -/
inductive Json
  | str (s : String)
  | num (n : Int)
  | bool (b : Bool)
  | null
  | arr (elems : List Json)
  | obj (fields : List (String × Json))

/-- The Python runtime type of a decoded JSON value, for the `type(x) != list`
and `type(x) != str` tests in `ACL.PUT`. -/
inductive PyType
  | list | str | dict | num | bool | noneType
deriving DecidableEq, Repr

/-- Runtime type of a decoded JSON value. -/
def pyType : Json → PyType
  | .arr _ => .list
  | .str _ => .str
  | .obj _ => .dict
  | .num _ => .num
  | .bool _ => .bool
  | .null => .noneType

/-- Python `'%s' % entry` for a decoded JSON value, as used in the ACL error
message (only the string case is exercised by the theorems below). -/
def pyFormatJson : Json → String
  | .str s => s
  | .num n => toString n
  | .bool b => if b then "True" else "False"
  | .null => "None"
  | .arr _ => "[...]"
  | .obj _ => "{...}"

/-- `RestHandler.in_content_type` (core.py lines 223-228): lower-case the raw
`Content-Type`, keep the part before the first `;`, and strip it. -/
def in_content_type (raw : Option String) : Option String :=
  raw.map (fun s => pyStrip ⟨(splitChar ';' (pyLower s).data).headD []⟩)

/-- Outcome of `ACL.PUT`: either a `BadRequest` raised before any mutation, or
the call `set_acl(access, acl, ...)` on the resolved resource followed by a
`204 No Content` update response. -/
inductive AclPutResult
  | badRequest (message : String)
  | setAcl (acl : List Json)

/-- The validation loop `for entry in acl: if type(acl) != str: ...`
(acl.py lines 74-76), faithfully testing `type(acl)` -- the whole list --
rather than `type(entry)` as the error message suggests.  Returns the first
entry that trips the test. -/
def firstBadEntry (acl : Json) : List Json → Option Json
  | [] => none
  | e :: es => if pyType acl ≠ PyType.str then some e else firstBadEntry acl es

/-- `ACL.PUT` (acl.py lines 62-84): require `application/json`, read and parse
the body (`none` models a `jsonReader` failure, caught by the bare `except`),
require a flat JSON array, run the per-entry validation loop, then invoke
`set_acl` wholesale. -/
def ACL_PUT (rawContentType : Option String) (jsonBody : Option Json) : AclPutResult :=
  if in_content_type rawContentType ≠ some "application/json" then
    .badRequest "Only application/json input is accepted for ACLs."
  else
    match jsonBody with
    | none => .badRequest "Error reading JSON input."
    | some acl =>
      match acl with
      | Json.arr entries =>
        match firstBadEntry (Json.arr entries) entries with
        | some e => .badRequest ("ACL entry \"" ++ pyFormatJson e ++ "\" is not a string.")
        | none => .setAcl entries
      | _ => .badRequest "ACL input must be a flat JSON array."

/-! ## Request lifecycle (src/hatrac/rest/core.py, web_method) -/

/-- The closed taxonomy of domain failures raised by resolution/ACL/storage
collaborators (`hatrac.core.*`), each carrying `str(ev)`. -/
inductive DomainError
  | badRequest (msg : String)
  | unauthenticated (msg : String)
  | forbidden (msg : String)
  | notFound (msg : String)
  | conflict (msg : String)
deriving DecidableEq, Repr

/-- A raised `RestException`: its status line and the message that becomes the
single-line plain-text body (`msg + '\n'`). -/
structure RestError where
  status : String
  message : String
deriving DecidableEq, Repr

/-- `RestException.__init__` (core.py lines 94-101): `msg = message or
self.message`, i.e. an empty message string is falsy and falls back to the
class default. -/
def orDefault (msg dflt : String) : String :=
  if msg = "" then dflt else msg

/-- The `except hatrac.core.* ` chain of `web_method` (core.py lines 167-176):
translate a domain failure into the corresponding transport failure, giving it
`str(ev)` as message (subject to the empty-message default of
`RestException.__init__`). -/
def translateDomain : DomainError → RestError
  | .badRequest m => ⟨"400 Bad Request", orDefault m "Request malformed."⟩
  | .unauthenticated m => ⟨"401 Unauthorized", orDefault m "Access requires authentication."⟩
  | .forbidden m => ⟨"403 Forbidden", orDefault m "Access forbidden."⟩
  | .notFound m => ⟨"404 Not Found", orDefault m "Resource not found."⟩
  | .conflict m => ⟨"409 Conflict", orDefault m "Request conflicts with state of server."⟩

/-- Observable events of one wrapped request: emitted body chunks and final
audit log lines (`logger.info(log_final_template % parts)`). -/
inductive ReqEvent
  | chunk (b : Nat)
  | logFinal
deriving DecidableEq, Repr

/-- How the wrapped handler body terminates after emitting its chunks:
normally, with a domain failure, or with a transport failure
(a `RestException` such as `NoMethod` or `BadRange` raised directly). -/
inductive HandlerTerm
  | done
  | domainFail (e : DomainError)
  | transportFail (e : RestError)
deriving DecidableEq, Repr

/-- One execution of the wrapped handler body (`original_method`): the chunks
it yields before terminating, and how it terminates.  A failure with
`chunks ≠ []` is a mid-stream failure. -/
structure HandlerRun where
  chunks : List Nat
  term : HandlerTerm
deriving DecidableEq, Repr

/-- Result of the `web_method` wrapper generator: every event it emits in
order, and the transport error it raises, if any. -/
structure WrapResult where
  events : List ReqEvent
  error : Option RestError
deriving DecidableEq, Repr

/-- The `Unauthorized` raised when `get_request_context` fails
(core.py lines 157-161). -/
def authFailError : RestError :=
  ⟨"401 Unauthorized", "service access requires client authentication"⟩

/-- `web_method`'s `wrapper` (core.py lines 146-189).  Context setup, then the
authentication step; its `Unauthorized` is raised *before* the
`try/except/finally` block, so that path emits nothing.  Otherwise the body
runs inside the `try`: chunks are yielded through, domain failures are
translated by the `except` chain, and the `finally` emits exactly one final
audit log line on every exit from the `try`. -/
def web_method_wrapper (authOk : Bool) (run : HandlerRun) : WrapResult :=
  if authOk then
    let evs := run.chunks.map ReqEvent.chunk
    match run.term with
    | .done => ⟨evs ++ [ReqEvent.logFinal], none⟩
    | .domainFail e => ⟨evs ++ [ReqEvent.logFinal], some (translateDomain e)⟩
    | .transportFail e => ⟨evs ++ [ReqEvent.logFinal], some e⟩
  else
    ⟨[], some authFailError⟩

/-- Number of final audit log lines among a request's events. -/
def countLogFinal (evs : List ReqEvent) : Nat :=
  evs.countP (fun e => decide (e = ReqEvent.logFinal))

/-! ## Address canonicalisation (src/hatrac/rest/core.py, RestHandler._fullname) -/

/-- `RestHandler._fullname` (core.py lines 200-203): split `path + name` at
every `/`, drop empty segments, and re-join slash-rooted.  `resolve` submits
exactly this string to the directory lookup. -/
def fullname (path name : String) : String :=
  let nameparts := (splitChar '/' (path ++ name).data).filter (fun seg => seg ≠ [])
  ⟨'/' :: List.intercalate ['/'] nameparts⟩

/-! ## Concrete resources used by witnesses and counterexamples -/

/-- A ten-byte concrete version resource. -/
def demoResource : Resource := { name := "X", content := [0, 1, 2, 3, 4, 5, 6, 7, 8, 9] }

/-- A two-byte concrete version resource. -/
def smallResource : Resource := { name := "X", content := [0, 1] }

/-- A zero-byte concrete version resource. -/
def emptyResource : Resource := { name := "X", content := [] }

/-! # Theorems -/

/-! ## Reduction lemmas for the range engine -/

theorem pySplit_empty (sep : Char) : pySplit "" sep = [""] := rfl

theorem header_ne_empty {hdr units rset : String} {sep : Char}
    (h : pySplit hdr sep = [units, rset]) : hdr ≠ "" := by
  intro e
  subst e
  rw [pySplit_empty] at h
  simp at h

theorem get_content_some (r : Resource) (hdr : String) (gb : Bool) (hne : hdr ≠ "") :
    get_content r (some hdr) gb = serveOutcome r (rangeOutcome r.nbytes hdr) gb := by
  simp [get_content, hne]

theorem rangeOutcome_parse_fail {nbytes : Nat} {hdr units rset : String}
    (hsplit : pySplit hdr '=' = [units, rset]) (hunits : pyLower units = "bytes")
    (hparse : parseRangeSet nbytes rset = none) :
    rangeOutcome nbytes hdr = RangeOutcome.full := by
  unfold rangeOutcome
  rw [hsplit]
  dsimp only
  rw [if_neg (by simp [hunits]), hparse]

theorem rangeOutcome_classify {nbytes : Nat} {hdr units rset : String} {slices : List Slice}
    (hsplit : pySplit hdr '=' = [units, rset]) (hunits : pyLower units = "bytes")
    (hparse : parseRangeSet nbytes rset = some slices) :
    rangeOutcome nbytes hdr =
      match slices.filter (intersects_resource nbytes) with
      | [] => RangeOutcome.badRange
      | [s] =>
        if s.start = 0 ∧ min s.stop (nbytes : Int) = (nbytes : Int) then RangeOutcome.full
        else RangeOutcome.one ⟨s.start, min s.stop (nbytes : Int)⟩
      | _ => RangeOutcome.notImplMulti := by
  unfold rangeOutcome
  rw [hsplit]
  dsimp only
  rw [if_neg (by simp [hunits]), hparse]

/-! ## C3 and its witness/counterexample -/

/-- C3 (corrected): for every syntactically valid range header whose parsed
intervals all start at or beyond `nbytes`, every interval is discarded by the
intersection filter and `get_content` fails with `BadRange`: status 416 and a
`Content-Range: bytes */nbytes` header.  The response body, however, is the
single-line plain-text error message (`RestException` sends `msg + '\n'`), not
empty as the claim states. -/
theorem get_content_beyond_entity (r : Resource) (hdr units rset : String)
    (slices : List Slice) (gb : Bool)
    (hsplit : pySplit hdr '=' = [units, rset])
    (hunits : pyLower units = "bytes")
    (hparse : parseRangeSet r.nbytes rset = some slices)
    (hbeyond : ∀ s ∈ slices, (r.nbytes : Int) ≤ s.start) :
    get_content r (some hdr) gb
        = HResult.badRange ("Range not satisfiable for resource " ++ r.name ++ ".") r.nbytes
      ∧ (get_content r (some hdr) gb).statusCode = 416
      ∧ (get_content r (some hdr) gb).contentRangeHeader
          = some ("bytes */" ++ toString r.nbytes)
      ∧ (get_content r (some hdr) gb).errorBody
          = some ("Range not satisfiable for resource " ++ r.name ++ "." ++ "\n") := by
  have hfilt : slices.filter (intersects_resource r.nbytes) = [] := by
    rw [List.filter_eq_nil_iff]
    intro s hs
    have h1 := hbeyond s hs
    simp only [intersects_resource, Bool.and_eq_true, decide_eq_true_eq, not_and]
    omega
  have hmain : get_content r (some hdr) gb
      = HResult.badRange ("Range not satisfiable for resource " ++ r.name ++ ".") r.nbytes := by
    rw [get_content_some r hdr gb (header_ne_empty hsplit),
      rangeOutcome_classify hsplit hunits hparse, hfilt]
    rfl
  exact ⟨hmain, by rw [hmain]; rfl, by rw [hmain]; rfl, by rw [hmain]; rfl⟩

/-- C3 witness: a two-byte resource with `Range: bytes=5-9`. -/
theorem get_content_beyond_entity_witness :
    get_content smallResource (some "bytes=5-9") true
        = HResult.badRange ("Range not satisfiable for resource X.") 2
      ∧ (get_content smallResource (some "bytes=5-9") true).statusCode = 416
      ∧ (get_content smallResource (some "bytes=5-9") true).contentRangeHeader
          = some "bytes */2"
      ∧ (get_content smallResource (some "bytes=5-9") true).errorBody
          = some "Range not satisfiable for resource X.\n" :=
  get_content_beyond_entity smallResource "bytes=5-9" "bytes" "5-9"
    [⟨5, 10⟩] true (by decide) (by decide) (by decide) (by decide)

/-- C3 counterexample: on the 416 path the response body is the plain-text
error message, not empty as the claim asserts. -/
theorem get_content_beyond_entity_body_not_empty :
    (get_content smallResource (some "bytes=5-9") true).statusCode = 416
    ∧ (get_content smallResource (some "bytes=5-9") true).errorBody ≠ some "" := by
  decide

/-! ## C5 and its witness/counterexample -/

/-- C5 (corrected): a range header whose range set fails the implementation's
parse -- a token without a dash, a token whose numeral Python `int` rejects, a
zero-length suffix, a closed range with `last < first`, covering all of the
claim's examples -- is ignored wholesale and the response is identical to the
no-Range-header response. -/
theorem range_syntax_error_ignored (r : Resource) (hdr units rset : String) (gb : Bool)
    (hsplit : pySplit hdr '=' = [units, rset])
    (hunits : pyLower units = "bytes")
    (hparse : parseRangeSet r.nbytes rset = none) :
    get_content r (some hdr) gb = get_content r none gb := by
  rw [get_content_some r hdr gb (header_ne_empty hsplit),
    rangeOutcome_parse_fail hsplit hunits hparse]
  rfl

/-- C5 witness: `bytes=5-2` (closed range with last < first) is ignored. -/
theorem range_syntax_error_ignored_witness :
    get_content demoResource (some "bytes=5-2") true = get_content demoResource none true :=
  range_syntax_error_ignored demoResource "bytes=5-2" "bytes" "5-2" true
    (by decide) (by decide) (by decide)

/-- C5 counterexample: `bytes=--5` contains a syntax error per the spec's own
token grammar (`-N` requires digits), yet Python `int("-5")` succeeds, the
token parses as a negative-length suffix whose interval starts beyond the
entity, and the engine answers 416 -- not the no-Range-header 200 response. -/
theorem range_spec_syntax_error_not_ignored :
    specRangeHeaderValid "bytes=--5" = false
    ∧ get_content demoResource (some "bytes=--5") true ≠ get_content demoResource none true := by
  decide

/-! ## C6 and its witness -/

/-- C6 (confirmed): a range header parsing to two or more intervals that all
intersect `[0, nbytes)` fails with `NotImplemented` (status 501); the
`BadRange`/`NotImplemented` re-raise clause keeps it out of the syntax-error
fallback. -/
theorem get_content_multi_range (r : Resource) (hdr units rset : String)
    (slices : List Slice) (gb : Bool)
    (hsplit : pySplit hdr '=' = [units, rset])
    (hunits : pyLower units = "bytes")
    (hparse : parseRangeSet r.nbytes rset = some slices)
    (hlen : 2 ≤ slices.length)
    (hall : ∀ s ∈ slices, intersects_resource r.nbytes s = true) :
    get_content r (some hdr) gb
        = HResult.notImplemented
            ("Multiple range request not implemented for resource " ++ r.name ++ ".")
      ∧ (get_content r (some hdr) gb).statusCode = 501 := by
  have hfilt : slices.filter (intersects_resource r.nbytes) = slices :=
    List.filter_eq_self.mpr hall
  cases slices with
  | nil => simp at hlen
  | cons a t =>
    cases t with
    | nil => simp at hlen
    | cons b t2 =>
      have hmain : get_content r (some hdr) gb
          = HResult.notImplemented
              ("Multiple range request not implemented for resource " ++ r.name ++ ".") := by
        rw [get_content_some r hdr gb (header_ne_empty hsplit),
          rangeOutcome_classify hsplit hunits hparse, hfilt]
        rfl
      exact ⟨hmain, by rw [hmain]; rfl⟩

/-! ## C2 and its witness -/

theorem toString_intOfNat (m : Nat) : toString ((m : Int)) = toString m := rfl

/-- C2 (confirmed): a range header parsing to the single closed interval
`[M, N+1)` with `0 ≤ M ≤ N < nbytes` yields 206 with header
`Content-Range: bytes M-N/nbytes` and a body of length `N-M+1`, except in the
whole-entity case `M = 0 ∧ N = nbytes-1`, which degrades to 200 with the full
body. -/
theorem get_content_closed_range (r : Resource) (M N : Nat) (hdr units rset : String)
    (hMN : M ≤ N) (hN : N < r.nbytes)
    (hsplit : pySplit hdr '=' = [units, rset])
    (hunits : pyLower units = "bytes")
    (hparse : parseRangeSet r.nbytes rset = some [⟨(M : Int), (N : Int) + 1⟩]) :
    (¬ (M = 0 ∧ N = r.nbytes - 1) →
      get_content r (some hdr) true
        = HResult.resp
            { status := 206,
              contentRange := some ("bytes " ++ toString M ++ "-" ++ toString N
                ++ "/" ++ toString r.nbytes),
              contentLength := N - M + 1,
              contentType := r.contentType, contentMD5 := r.contentMD5,
              body := (r.content.drop M).take (N - M + 1) })
    ∧ ((M = 0 ∧ N = r.nbytes - 1) →
      get_content r (some hdr) true
        = HResult.resp
            { status := 200, contentRange := none, contentLength := r.nbytes,
              contentType := r.contentType, contentMD5 := r.contentMD5,
              body := r.content }) := by
  have hN' : N < r.content.length := hN
  have hint : intersects_resource r.nbytes ⟨(M : Int), (N : Int) + 1⟩ = true := by
    simp only [intersects_resource, Bool.and_eq_true, decide_eq_true_eq]
    omega
  have hfilt : List.filter (intersects_resource r.nbytes) [(⟨(M : Int), (N : Int) + 1⟩ : Slice)]
      = [(⟨(M : Int), (N : Int) + 1⟩ : Slice)] := by
    simp [hint]
  have hmin : min ((N : Int) + 1) (r.nbytes : Int) = (N : Int) + 1 :=
    min_eq_left (by omega)
  have hdata : r.getContentRange ⟨(M : Int), (N : Int) + 1⟩
      = (r.content.drop M).take (N - M + 1) := by
    have e1 : ((M : Int)).toNat = M := by omega
    have e2 : (((N : Int) + 1) - (M : Int)).toNat = N - M + 1 := by omega
    simp only [Resource.getContentRange]
    rw [e1, e2]
  have hlen : ((r.content.drop M).take (N - M + 1)).length = N - M + 1 := by
    rw [List.length_take, List.length_drop]
    omega
  constructor
  · intro hnot
    have hcond : ¬ (((⟨(M : Int), (N : Int) + 1⟩ : Slice)).start = 0
        ∧ min ((⟨(M : Int), (N : Int) + 1⟩ : Slice)).stop (r.nbytes : Int) = (r.nbytes : Int)) := by
      dsimp only
      rw [hmin]
      rintro ⟨h1, h2⟩
      exact hnot ⟨by omega, by omega⟩
    rw [get_content_some r hdr true (header_ne_empty hsplit),
      rangeOutcome_classify hsplit hunits hparse, hfilt]
    dsimp only
    rw [if_neg hcond]
    show HResult.resp _ = _
    rw [hmin]
    have e3 : ((N : Int) + 1) - 1 = (N : Int) := by ring
    simp only [serveOutcome, hdata, hlen, e3, toString_intOfNat, if_true]
  · rintro ⟨hM0, hNlast⟩
    have hcond : (((⟨(M : Int), (N : Int) + 1⟩ : Slice)).start = 0
        ∧ min ((⟨(M : Int), (N : Int) + 1⟩ : Slice)).stop (r.nbytes : Int) = (r.nbytes : Int)) := by
      dsimp only
      rw [hmin]
      exact ⟨by omega, by omega⟩
    rw [get_content_some r hdr true (header_ne_empty hsplit),
      rangeOutcome_classify hsplit hunits hparse, hfilt]
    dsimp only
    rw [if_pos hcond]
    rfl

/-- C2 witness: `bytes=2-5` on a ten-byte resource gives 206,
`Content-Range: bytes 2-5/10`, and a four-byte body. -/
theorem get_content_closed_range_witness :
    get_content demoResource (some "bytes=2-5") true
      = HResult.resp
          { status := 206, contentRange := some "bytes 2-5/10", contentLength := 4,
            contentType := none, contentMD5 := none, body := [2, 3, 4, 5] } :=
  (get_content_closed_range demoResource 2 5 "bytes=2-5" "bytes" "2-5"
    (by decide) (by decide) (by decide) (by decide) (by decide)).1 (by decide)

/-! ## C4 and its witness/counterexample -/

/-- C4 (corrected): a suffix range `-K` with `K > nbytes` is clamped to the
whole entity and, provided `nbytes > 0`, degrades to the full-entity 200
response.  The claim's `nbytes = 0` case is false: the clamped interval
`[0, 0)` does not intersect the empty entity and the engine answers 416
instead (see the counterexample). -/
theorem get_content_long_suffix (r : Resource) (hdr units rset rspec lastTok : String)
    (K : Int)
    (hsplit : pySplit hdr '=' = [units, rset])
    (hunits : pyLower units = "bytes")
    (hset : pySplit rset ',' = [rspec])
    (hdash : splitOnce rspec '-' = some ("", lastTok))
    (hK : pyInt lastTok = some K)
    (hKn : (r.nbytes : Int) < K)
    (hpos : 0 < r.nbytes) :
    get_content r (some hdr) true
      = HResult.resp
          { status := 200, contentRange := none, contentLength := r.nbytes,
            contentType := r.contentType, contentMD5 := r.contentMD5,
            body := r.content } := by
  have hspec : parseSpec r.nbytes rspec = some ⟨0, (r.nbytes : Int)⟩ := by
    unfold parseSpec
    rw [hdash]
    dsimp only
    rw [if_pos rfl, hK]
    dsimp only
    rw [if_neg (by omega : ¬ K = 0), if_pos hKn]
    simp
  have hparse : parseRangeSet r.nbytes rset = some [⟨0, (r.nbytes : Int)⟩] := by
    unfold parseRangeSet
    rw [hset]
    simp [parseSpecs, hspec]
  have hint : intersects_resource r.nbytes ⟨0, (r.nbytes : Int)⟩ = true := by
    simp only [intersects_resource, Bool.and_eq_true, decide_eq_true_eq]
    omega
  have hfilt : List.filter (intersects_resource r.nbytes) [(⟨0, (r.nbytes : Int)⟩ : Slice)]
      = [(⟨0, (r.nbytes : Int)⟩ : Slice)] := by
    simp [hint]
  rw [get_content_some r hdr true (header_ne_empty hsplit),
    rangeOutcome_classify hsplit hunits hparse, hfilt]
  dsimp only
  rw [if_pos ⟨rfl, min_self _⟩]
  rfl

/-- C4 witness: `bytes=-5` on a two-byte resource clamps to the whole entity
and serves 200 with the full body. -/
theorem get_content_long_suffix_witness :
    get_content smallResource (some "bytes=-5") true
      = HResult.resp
          { status := 200, contentRange := none, contentLength := 2,
            contentType := none, contentMD5 := none, body := [0, 1] } :=
  get_content_long_suffix smallResource "bytes=-5" "bytes" "-5" "-5" "5" 5
    (by decide) (by decide) (by decide) (by decide) (by decide) (by decide) (by decide)

/-- C4 counterexample: at `nbytes = 0` a suffix range `-K` with `K > nbytes`
yields `BadRange` (416), not the claimed full-entity 200 response. -/
theorem get_content_long_suffix_empty_entity :
    get_content emptyResource (some "bytes=-1") true
        = HResult.badRange "Range not satisfiable for resource X." 0
      ∧ (get_content emptyResource (some "bytes=-1") true).statusCode ≠ 200 := by
  decide

/-- C6 witness: `bytes=0-0,3-4` on a ten-byte resource. -/
theorem get_content_multi_range_witness :
    get_content demoResource (some "bytes=0-0,3-4") true
        = HResult.notImplemented "Multiple range request not implemented for resource X."
      ∧ (get_content demoResource (some "bytes=0-0,3-4") true).statusCode = 501 :=
  get_content_multi_range demoResource "bytes=0-0,3-4" "bytes" "0-0,3-4"
    [⟨0, 1⟩, ⟨3, 5⟩] true (by decide) (by decide) (by decide) (by decide) (by decide)

/-! ## C1: evaluation of `ACL.PUT` at the failing input -/

/-- C1 (code_bug): the per-entry validation loop tests `type(acl)` -- the whole
list -- instead of `type(entry)`, so a well-formed non-empty flat JSON array of
strings presented as `application/json` is rejected with `BadRequest` and
`set_acl` is never invoked, contradicting both the claim and the loop's own
error message. -/
theorem aclPut_valid_nonempty_array_rejected :
    ACL_PUT (some "application/json") (some (Json.arr [Json.str "admin"]))
      = AclPutResult.badRequest "ACL entry \"admin\" is not a string." := rfl

/-- The only inputs on which `ACL.PUT` reaches `set_acl` are empty arrays:
context for the slip above (the loop body never runs on `[]`). -/
theorem aclPut_empty_array_accepted :
    ACL_PUT (some "application/json") (some (Json.arr [])) = AclPutResult.setAcl [] := rfl

/-! ## C7 and its witness -/

/-- C7 (confirmed): an ACL category PUT whose body has a content type other
than `application/json`, or is unparsable JSON, or parses to a non-array, or
to an array containing a non-string element, fails with `BadRequest`; the
result constructor shows `set_acl` is never invoked, so the stored ACL is
unchanged. -/
theorem aclPut_bad_input_rejected (ct : Option String) (b : Option Json)
    (h : in_content_type ct ≠ some "application/json"
       ∨ b = none
       ∨ (∃ j, b = some j ∧ pyType j ≠ PyType.list)
       ∨ (∃ xs, b = some (Json.arr xs) ∧ ∃ e ∈ xs, pyType e ≠ PyType.str)) :
    ∃ msg, ACL_PUT ct b = AclPutResult.badRequest msg := by
  by_cases hct : in_content_type ct = some "application/json"
  case neg =>
    exact ⟨_, by unfold ACL_PUT; rw [if_pos hct]⟩
  case pos =>
    rcases h with hbad | hb | ⟨j, hj, hty⟩ | ⟨xs, hb, e, he, hety⟩
    · exact absurd hct hbad
    · subst hb
      exact ⟨_, by unfold ACL_PUT; rw [if_neg (not_ne_iff.mpr hct)]⟩
    · subst hj
      unfold ACL_PUT
      rw [if_neg (not_ne_iff.mpr hct)]
      cases j with
      | arr xs => exact absurd rfl hty
      | str s => exact ⟨_, rfl⟩
      | num n => exact ⟨_, rfl⟩
      | bool v => exact ⟨_, rfl⟩
      | null => exact ⟨_, rfl⟩
      | obj fs => exact ⟨_, rfl⟩
    · subst hb
      cases xs with
      | nil => exact absurd he (List.not_mem_nil e)
      | cons y ys =>
        unfold ACL_PUT
        rw [if_neg (not_ne_iff.mpr hct)]
        exact ⟨_, rfl⟩

/-- C7 witness: a `text/plain` body is rejected with `BadRequest`. -/
theorem aclPut_bad_input_rejected_witness :
    ∃ msg, ACL_PUT (some "text/plain") none = AclPutResult.badRequest msg :=
  aclPut_bad_input_rejected (some "text/plain") none (Or.inl (by decide))

/-! ## C8 and its counterexample -/

theorem countLogFinal_append_log (l : List Nat) :
    countLogFinal (l.map ReqEvent.chunk ++ [ReqEvent.logFinal]) = 1 := by
  unfold countLogFinal
  rw [List.countP_append]
  have h0 : List.countP (fun e => decide (e = ReqEvent.logFinal)) (l.map ReqEvent.chunk)
      = 0 := by
    rw [List.countP_eq_zero]
    intro a ha
    rcases List.mem_map.mp ha with ⟨b, _, rfl⟩
    simp
  rw [h0]
  rfl

/-- C8 (corrected): once the authentication-context step has succeeded, every
exit path of the wrapped handler -- normal completion, a domain or transport
failure before any output, and a failure raised mid-stream after some chunks --
emits exactly one final audit log line, by the `try/finally`.  The claim's
unconditional form fails on the authentication-failure path, which raises
`Unauthorized` before the `try/finally` and logs nothing (see the
counterexample). -/
theorem web_method_exactly_one_log (run : HandlerRun) :
    countLogFinal (web_method_wrapper true run).events = 1 := by
  obtain ⟨chunks, term⟩ := run
  cases term with
  | done => exact countLogFinal_append_log chunks
  | domainFail e => exact countLogFinal_append_log chunks
  | transportFail e => exact countLogFinal_append_log chunks

/-- C8 counterexample: a request whose credential resolution fails raises the
`Unauthorized` transport failure before any output and emits zero final audit
log lines, not exactly one. -/
theorem web_method_auth_failure_no_log :
    (web_method_wrapper false ⟨[], HandlerTerm.done⟩).error = some authFailError
    ∧ countLogFinal (web_method_wrapper false ⟨[], HandlerTerm.done⟩).events = 0 := by
  decide

/-! ## C9 and its witness/counterexample -/

/-- C9 (corrected): the `except` chain translates each domain failure 1:1 per
the fixed table -- BadRequest to 400, Unauthenticated to 401, Forbidden to 403,
NotFound to 404, Conflict to 409 -- carrying the domain failure's message as
the error text whenever that message is non-empty.  (An empty message is falsy
in `msg = message or self.message` and is replaced by the class default; see
the counterexample.) -/
theorem translateDomain_table (m : String) (hm : m ≠ "") :
    translateDomain (DomainError.badRequest m) = ⟨"400 Bad Request", m⟩
    ∧ translateDomain (DomainError.unauthenticated m) = ⟨"401 Unauthorized", m⟩
    ∧ translateDomain (DomainError.forbidden m) = ⟨"403 Forbidden", m⟩
    ∧ translateDomain (DomainError.notFound m) = ⟨"404 Not Found", m⟩
    ∧ translateDomain (DomainError.conflict m) = ⟨"409 Conflict", m⟩ := by
  simp [translateDomain, orDefault, hm]

/-- C9 witness: the translation table at the message "oops". -/
theorem translateDomain_table_witness :
    translateDomain (DomainError.badRequest "oops") = ⟨"400 Bad Request", "oops"⟩
    ∧ translateDomain (DomainError.unauthenticated "oops") = ⟨"401 Unauthorized", "oops"⟩
    ∧ translateDomain (DomainError.forbidden "oops") = ⟨"403 Forbidden", "oops"⟩
    ∧ translateDomain (DomainError.notFound "oops") = ⟨"404 Not Found", "oops"⟩
    ∧ translateDomain (DomainError.conflict "oops") = ⟨"409 Conflict", "oops"⟩ :=
  translateDomain_table "oops" (by decide)

/-- C9 counterexample: a domain `BadRequest` with an empty message is not
carried through; the transport failure's text is the class default
`Request malformed.` instead. -/
theorem translateDomain_empty_message_default :
    translateDomain (DomainError.badRequest "")
        = ⟨"400 Bad Request", "Request malformed."⟩
    ∧ (translateDomain (DomainError.badRequest "")).message ≠ "" := by
  decide

/-! ## C10 and its witness/counterexample -/

theorem splitChar_ne_nil (sep : Char) : ∀ cs : List Char, splitChar sep cs ≠ []
  | [] => by simp [splitChar]
  | c :: cs => by
    rcases List.exists_cons_of_ne_nil (splitChar_ne_nil sep cs) with ⟨s, rest, hsr⟩
    by_cases hc : c = sep <;> simp [splitChar, hsr, hc]

theorem splitChar_append (sep : Char) (xs ys : List Char) :
    splitChar sep (xs ++ sep :: ys) = splitChar sep xs ++ splitChar sep ys := by
  induction xs with
  | nil =>
    rcases List.exists_cons_of_ne_nil (splitChar_ne_nil sep ys) with ⟨s, rest, hsr⟩
    simp [splitChar, hsr]
  | cons c cs ih =>
    rcases List.exists_cons_of_ne_nil (splitChar_ne_nil sep cs) with ⟨s, rest, hsr⟩
    by_cases hc : c = sep <;> simp [splitChar, ih, hsr, hc]

theorem fullname_slash (p n : String) :
    fullname (p ++ "/") n
      = ⟨'/' :: List.intercalate ['/']
          (((splitChar '/' p.data).filter (fun s => s ≠ []))
            ++ ((splitChar '/' n.data).filter (fun s => s ≠ [])))⟩ := by
  unfold fullname
  have e : ((p ++ "/") ++ n).data = p.data ++ '/' :: n.data := by
    rw [String.data_append, String.data_append]
    simp
  rw [e, splitChar_append, List.filter_append]

/-- C10 (corrected): `_fullname` canonicalises `path + name` to the
slash-rooted join of its non-empty segments, and an entirely empty path and
name give the root name "/".  The claimed invariance
`resolve(path + '/', name) = resolve(path, name)` holds whenever `path` is
empty or already slash-terminated (as every path delivered by the URL grammar
is), but not for arbitrary strings (see the counterexample). -/
theorem fullname_canonical (path name : String)
    (h : path = "" ∨ ∃ p, path = p ++ "/") :
    fullname (path ++ "/") name = fullname path name ∧ fullname "" "" = "/" := by
  refine ⟨?_, rfl⟩
  rcases h with rfl | ⟨p, rfl⟩
  · rw [fullname_slash]
    unfold fullname
    rw [String.data_append]
    show _ = (⟨'/' :: List.intercalate ['/']
      ((splitChar '/' (("" : String).data ++ name.data)).filter (fun s => s ≠ []))⟩ : String)
    have e : ("" : String).data = [] := rfl
    rw [e]
    simp [splitChar]
  · rw [fullname_slash, fullname_slash]
    have e : ((p ++ "/") : String).data = p.data ++ '/' :: [] := by
      rw [String.data_append]
    rw [e, splitChar_append, List.filter_append]
    simp [splitChar]

/-- C10 witness: appending a redundant trailing slash to the already
slash-terminated path "a/" resolves the same fullname. -/
theorem fullname_canonical_witness :
    fullname ("a/" ++ "/") "b" = fullname "a/" "b" ∧ fullname "" "" = "/" :=
  fullname_canonical "a/" "b" (Or.inr ⟨"a", by decide⟩)

/-- C10 counterexample: for `path = "a"`, `name = "b"` the concatenation has
no separator, so `_fullname("a", "b") = "/ab"` while
`_fullname("a" + "/", "b") = "/a/b"`: the claimed invariance fails. -/
theorem fullname_trailing_slash_not_invariant :
    fullname ("a" ++ "/") "b" ≠ fullname "a" "b" := by
  decide

end Hatrac
